import Mathlib

/-!
Shallow embedding of the streaming metric-aggregation engine of the `otelgen`
repository (package `internal/metrics`): the explicit-bounds histogram worker
(`config.go`: `histogram`, `findBucket`, `SimulateHistogram`, `Config.Validate`),
the exponential histogram worker (`exponential_histogram.go`:
`exponentialHistogram`, `mapToIndex`), the exemplar buffer, the worker duration
default (`worker.go`: `Worker.Run`) and the pacing arithmetic of the three
worker loops.  Go `float64` values are modelled as `ℚ` where only order and
field operations occur, and as `ℝ` where the code takes logarithms
(`mapToIndex`).  Times are `ℤ` nanosecond timestamps.  Randomly generated
content (trace ids, span ids, random attribute strings) is irrelevant to every
property below and is omitted from the `Exemplar` model.
-/

namespace Otelgen

/-- Temporality of an instrument (`metricdata.Temporality`, restricted to the
two values the workers compare against). -/
inductive Temporality where
  | cumulative
  | delta
deriving DecidableEq

/-- Exemplar (`generateExemplar`): the value and timestamp; the random
span/trace identifiers and the random attribute are opaque to all claims. -/
structure Exemplar (α : Type) where
  value : α
  timeUnix : ℤ
deriving DecidableEq

/-- `generateExemplar(r, value, timestamp)` modulo the random fields. -/
def generateExemplar {α : Type} (value : α) (timeUnix : ℤ) : Exemplar α :=
  ⟨value, timeUnix⟩

/-- The exemplar-buffer maintenance both workers perform after appending:
`exemplars = append(exemplars, exemplar); if len(exemplars) > 10 { exemplars =
exemplars[1:] }`. -/
def pushExemplar {α : Type} (exemplars : List (Exemplar α)) (e : Exemplar α) :
    List (Exemplar α) :=
  let es := exemplars ++ [e]
  if es.length > 10 then es.drop 1 else es

/-- `findBucket(value, bounds)` from `config.go`: linear scan returning the
first index whose bound is `≥ value`, or `len(bounds)` when none is. -/
def findBucket (value : ℚ) : List ℚ → ℕ
  | [] => 0
  | bound :: rest => if value ≤ bound then 0 else findBucket value rest + 1

/-- The fields of `HistogramConfig` that the aggregation loop reads. -/
structure HistogramConfig where
  temporality : Temporality
  bounds : List ℚ
  recordMinMax : Bool

/-- The mutable loop state of the `histogram` worker in `config.go`:
`startTime, count, sum, minVal, maxVal, bucketCounts, exemplars`. -/
structure HistState where
  startTime : ℤ
  count : ℕ
  sum : ℚ
  minVal : ℚ
  maxVal : ℚ
  bucketCounts : List ℕ
  exemplars : List (Exemplar ℚ)

/-- `HistogramDataPoint` (the fields with aggregation content; the random
UUID and the static attributes are omitted). -/
structure HistogramDataPoint where
  startTimeUnix : ℤ
  timeUnix : ℤ
  count : ℕ
  sum : ℚ
  min : ℚ
  max : ℚ
  bucketCounts : List ℕ
  exemplars : List (Exemplar ℚ)

/-- The loop-variable initialisation of the `histogram` worker:
`bucketCounts := make([]uint64, len(config.Bounds)+1)` and zero counters. -/
def initHistState (cfg : HistogramConfig) (t : ℤ) : HistState :=
  { startTime := t
    count := 0
    sum := 0
    minVal := 0
    maxVal := 0
    bucketCounts := List.replicate (cfg.bounds.length + 1) 0
    exemplars := [] }

/-- One recorded value of the `histogram` worker (`config.go` lines 292-316):
increment `count`, add to `sum`, conditional min/max update keyed on
`count == 1` after the increment, bucket increment at `findBucket`, and the
exemplar append-and-trim. -/
def histRecord (cfg : HistogramConfig) (value : ℚ) (currentTime : ℤ)
    (s : HistState) : HistState :=
  let count := s.count + 1
  let sum := s.sum + value
  let minVal :=
    if cfg.recordMinMax then
      if value < s.minVal ∨ count = 1 then value else s.minVal
    else s.minVal
  let maxVal :=
    if cfg.recordMinMax then
      if value > s.maxVal ∨ count = 1 then value else s.maxVal
    else s.maxVal
  let bucketIndex := findBucket value cfg.bounds
  let bucketCounts :=
    s.bucketCounts.set bucketIndex (s.bucketCounts.getD bucketIndex 0 + 1)
  let exemplars := pushExemplar s.exemplars (generateExemplar value currentTime)
  { startTime := s.startTime
    count := count
    sum := sum
    minVal := minVal
    maxVal := maxVal
    bucketCounts := bucketCounts
    exemplars := exemplars }

/-- Assembling the `HistogramDataPoint` of one iteration from the state. -/
def histSnapshot (s : HistState) (t : ℤ) : HistogramDataPoint :=
  { startTimeUnix := s.startTime
    timeUnix := t
    count := s.count
    sum := s.sum
    min := s.minVal
    max := s.maxVal
    bucketCounts := s.bucketCounts
    exemplars := s.exemplars }

/-- The delta reset of the `histogram` worker (lines 347-356): zero counters,
fresh bucket slice, `exemplars = nil`, `startTime = currentTime`. -/
def histReset (cfg : HistogramConfig) (currentTime : ℤ) : HistState :=
  { startTime := currentTime
    count := 0
    sum := 0
    minVal := 0
    maxVal := 0
    bucketCounts := List.replicate (cfg.bounds.length + 1) 0
    exemplars := [] }

/-- One full iteration of the `histogram` worker body: record, build the data
point, reset when the temporality is Delta, then emit the (pre-reset) data
point. -/
def histStep (cfg : HistogramConfig) (s : HistState) (value : ℚ)
    (currentTime : ℤ) : HistogramDataPoint × HistState :=
  let s1 := histRecord cfg value currentTime s
  let dp := histSnapshot s1 currentTime
  let s2 := if cfg.temporality = .delta then histReset cfg currentTime else s1
  (dp, s2)

/-- The fields of `ExponentialHistogramConfig` that the aggregation loop
reads (`Name`, `Description`, `Unit`, `Attributes` only label the output). -/
structure ExpHistogramConfig where
  temporality : Temporality
  scale : ℤ
  maxSize : ℝ
  recordMinMax : Bool
  zeroThreshold : ℝ

/-- `mapToIndex(value, scale)` from `exponential_histogram.go`:
`0` for the value `0`, otherwise
`floor(Log(|value|) * Ldexp(Log2E, scale))`, where `math.Log2E = 1 / ln 2`
and `Ldexp(x, e) = x * 2^e`. -/
noncomputable def mapToIndex (value : ℝ) (scale : ℤ) : ℤ :=
  if value = 0 then 0
  else
    let absValue := |value|
    let scaleFactor := (Real.log 2)⁻¹ * 2 ^ scale
    ⌊Real.log absValue * scaleFactor⌋

/-- The mutable loop state of the `exponentialHistogram` worker:
`startTime, min, max, zeroCount, totalCount, positiveBuckets, negativeBuckets,
sum, exemplars`.  Go's `map[int32]uint64` (absent key reads as `0`) is the
finitely supported function `ℤ →₀ ℕ`. -/
structure ExpState where
  startTime : ℤ
  minVal : ℝ
  maxVal : ℝ
  zeroCount : ℕ
  totalCount : ℕ
  positiveBuckets : ℤ →₀ ℕ
  negativeBuckets : ℤ →₀ ℕ
  sum : ℝ
  exemplars : List (Exemplar ℝ)

/-- `ExponentialHistogramDataPoint` (aggregation-relevant fields). -/
structure ExpHistogramDataPoint where
  startTimeUnix : ℤ
  timeUnix : ℤ
  count : ℕ
  sum : ℝ
  scale : ℤ
  zeroCount : ℕ
  positiveBuckets : ℤ →₀ ℕ
  negativeBuckets : ℤ →₀ ℕ
  min : ℝ
  max : ℝ
  exemplars : List (Exemplar ℝ)

/-- The loop-variable initialisation of the `exponentialHistogram` worker. -/
def initExpState (t : ℤ) : ExpState :=
  { startTime := t
    minVal := 0
    maxVal := 0
    zeroCount := 0
    totalCount := 0
    positiveBuckets := 0
    negativeBuckets := 0
    sum := 0
    exemplars := [] }

/-- The bucket routing of one value (`exponential_histogram.go` lines
105-114): the zero bucket when `|value| <= zeroThreshold`, otherwise the
signed bucket map at `mapToIndex`, positive when `value >= 0`.  Go's
`m[index]++` is `m + single index 1`. -/
noncomputable def routeValue (cfg : ExpHistogramConfig) (value : ℝ)
    (zeroCount : ℕ) (pos neg : ℤ →₀ ℕ) : ℕ × (ℤ →₀ ℕ) × (ℤ →₀ ℕ) :=
  if |value| ≤ cfg.zeroThreshold then
    (zeroCount + 1, pos, neg)
  else
    let index := mapToIndex value cfg.scale
    if 0 ≤ value then
      (zeroCount, pos + Finsupp.single index 1, neg)
    else
      (zeroCount, pos, neg + Finsupp.single index 1)

/-- One recorded value of the `exponentialHistogram` worker (lines 93-125):
min/max update keyed on `totalCount == 0` before the increment, bucket
routing, `totalCount++`, `sum += value`, exemplar append-and-trim. -/
noncomputable def expRecord (cfg : ExpHistogramConfig) (value : ℝ)
    (currentTime : ℤ) (s : ExpState) : ExpState :=
  let minVal :=
    if cfg.recordMinMax then
      if value < s.minVal ∨ s.totalCount = 0 then value else s.minVal
    else s.minVal
  let maxVal :=
    if cfg.recordMinMax then
      if value > s.maxVal ∨ s.totalCount = 0 then value else s.maxVal
    else s.maxVal
  let routed := routeValue cfg value s.zeroCount s.positiveBuckets s.negativeBuckets
  let totalCount := s.totalCount + 1
  let sum := s.sum + value
  let exemplars := pushExemplar s.exemplars (generateExemplar value currentTime)
  { startTime := s.startTime
    minVal := minVal
    maxVal := maxVal
    zeroCount := routed.1
    positiveBuckets := routed.2.1
    negativeBuckets := routed.2.2
    totalCount := totalCount
    sum := sum
    exemplars := exemplars }

/-- Assembling the `ExponentialHistogramDataPoint` of one iteration. -/
def expSnapshot (cfg : ExpHistogramConfig) (s : ExpState) (t : ℤ) :
    ExpHistogramDataPoint :=
  { startTimeUnix := s.startTime
    timeUnix := t
    count := s.totalCount
    sum := s.sum
    scale := cfg.scale
    zeroCount := s.zeroCount
    positiveBuckets := s.positiveBuckets
    negativeBuckets := s.negativeBuckets
    min := s.minVal
    max := s.maxVal
    exemplars := s.exemplars }

/-- The delta reset of the `exponentialHistogram` worker (lines 159-170). -/
def expReset (currentTime : ℤ) : ExpState :=
  { startTime := currentTime
    minVal := 0
    maxVal := 0
    zeroCount := 0
    totalCount := 0
    positiveBuckets := 0
    negativeBuckets := 0
    sum := 0
    exemplars := [] }

/-- One full iteration of the `exponentialHistogram` worker body. -/
noncomputable def expStep (cfg : ExpHistogramConfig) (s : ExpState) (value : ℝ)
    (currentTime : ℤ) : ExpHistogramDataPoint × ExpState :=
  let s1 := expRecord cfg value currentTime s
  let dp := expSnapshot cfg s1 currentTime
  let s2 := if cfg.temporality = .delta then expReset currentTime else s1
  (dp, s2)

/-- Total number of occupied-bucket observations of one signed bucket map. -/
def bucketTotal (buckets : ℤ →₀ ℕ) : ℕ :=
  buckets.sum fun _ n => n

/-- The validated fields of `Config` (`config.go`).  `Rate` is `float64`,
`TotalDuration` a `time.Duration` (`int64` nanoseconds), the counts Go
`int`s.  The OTLP endpoint booleans, headers and attributes are never read
by `Validate` or the workers. -/
structure Config where
  workerCount : ℤ
  numMetrics : ℤ
  rate : ℚ
  totalDuration : ℤ
  serviceName : String
  output : String

/-- `Config.Validate` (`config.go` lines 141-164), for a non-nil receiver:
the first failing check produces its typed error. -/
def Config.validate (c : Config) : Except String Unit :=
  if c.workerCount < 0 then .error "worker count must be positive"
  else if c.numMetrics < 0 then .error "num metrics must be non-negative"
  else if c.rate < 0 then .error "rate must be positive"
  else if c.totalDuration < 0 then .error "total duration must be non-negative"
  else if c.serviceName = "" then .error "service name must not be empty"
  else if c.output = "" then .error "output must not be empty"
  else .ok ()

/-- Outcome of `SimulateHistogram`: either it returns before `run` with a
validation error, or it invokes `run` with the worker function. -/
inductive SimOutcome where
  | validationError (msg : String)
  | ran
deriving DecidableEq

/-- Control flow of `SimulateHistogram` (`config.go` lines 225-241): nil
config and `Validate` failures return the error without invoking `run`. -/
def simulateHistogram (conf : Option Config) : SimOutcome :=
  match conf with
  | none => .validationError "config is nil, cannot run SimulateHistogram"
  | some c =>
    match c.validate with
    | .error e => .validationError e
    | .ok _ => .ran

/-- Nanoseconds of `time.Second`. -/
def nsPerSecond : ℤ := 1000000000

/-- The duration `Worker.Run` (`worker.go` lines 46-57) actually installs as
its timeout: a zero `totalDuration` is first replaced by `86400 *
time.Second`. -/
def workerEffectiveDuration (totalDuration : ℤ) : ℤ :=
  if totalDuration = 0 then 86400 * nsPerSecond else totalDuration

/-- Go's `int64(f)` conversion of a `float64`: truncation toward zero. -/
def float64ToInt64 (q : ℚ) : ℤ :=
  if 0 ≤ q then ⌊q⌋ else ⌈q⌉

/-- Ticker period of the `histogram` worker for a positive rate
(`config.go` line 269): `time.Second / time.Duration(c.Rate)`, an `int64`
(truncating) division of nanosecond counts. -/
def histogramTickerPeriodNs (rate : ℚ) : ℤ :=
  Int.tdiv nsPerSecond (float64ToInt64 rate)

/-- Ticker period of the `exponentialHistogram` worker
(`exponential_histogram.go` line 68): `time.Duration(c.Rate) * time.Second`. -/
def expHistogramTickerPeriodNs (rate : ℚ) : ℤ :=
  float64ToInt64 rate * nsPerSecond

/-- The rate `SimulateSum` actually runs with (`sum.go` lines 38-40):
`if conf.Rate == 0 { conf.Rate = 1 }`. -/
def sumEffectiveRate (rate : ℚ) : ℚ :=
  if rate = 0 then 1 else rate

/-- Whether one iteration of the `histogram` worker body records a value
(`config.go` line 291): `c.Rate == 0 || (ticker != nil && selectTicker(ticker))`,
with the ticker existing exactly when `c.Rate > 0`. -/
def histogramRecordsThisIteration (rate : ℚ) (tickReady : Bool) : Bool :=
  decide (rate = 0) || (decide (0 < rate) && tickReady)

lemma sum_set_getD_add_one :
    ∀ (l : List ℕ) (i : ℕ), i < l.length →
      (l.set i (l.getD i 0 + 1)).sum = l.sum + 1
  | [], i, h => by simp at h
  | a :: t, 0, _ => by
    simp only [List.getD_cons_zero, List.set_cons_zero, List.sum_cons]
    omega
  | a :: t, i + 1, h => by
    have ih := sum_set_getD_add_one t i (by simpa using h)
    simp only [List.getD_cons_succ, List.set_cons_succ, List.sum_cons, ih]
    omega

lemma findBucket_le_length (value : ℚ) (bounds : List ℚ) :
    findBucket value bounds ≤ bounds.length := by
  induction bounds with
  | nil => simp [findBucket]
  | cons b rest ih =>
    by_cases h : value ≤ b
    · simp [findBucket, h]
    · simp only [findBucket, if_neg h, List.length_cons]
      omega

lemma bucketTotal_add_single (f : ℤ →₀ ℕ) (i : ℤ) :
    bucketTotal (f + Finsupp.single i 1) = bucketTotal f + 1 := by
  unfold bucketTotal
  rw [Finsupp.sum_add_index' (fun _ => rfl) (fun _ _ _ => rfl),
    Finsupp.sum_single_index rfl]

lemma histRecord_preserves (cfg : HistogramConfig) (value : ℚ) (t : ℤ)
    (s : HistState)
    (h1 : s.bucketCounts.sum = s.count)
    (h2 : s.bucketCounts.length = cfg.bounds.length + 1) :
    (histRecord cfg value t s).bucketCounts.sum = (histRecord cfg value t s).count ∧
      (histRecord cfg value t s).bucketCounts.length = cfg.bounds.length + 1 := by
  have hidx : findBucket value cfg.bounds < s.bucketCounts.length := by
    have := findBucket_le_length value cfg.bounds
    omega
  constructor
  · simp only [histRecord, sum_set_getD_add_one s.bucketCounts _ hidx, h1]
  · simp only [histRecord, List.length_set, h2]

lemma hist_fold_inv (cfg : HistogramConfig) (l : List (ℚ × ℤ)) :
    ∀ s : HistState,
      s.bucketCounts.sum = s.count →
      s.bucketCounts.length = cfg.bounds.length + 1 →
      (l.foldl (fun s vt => histRecord cfg vt.1 vt.2 s) s).bucketCounts.sum
          = (l.foldl (fun s vt => histRecord cfg vt.1 vt.2 s) s).count ∧
        (l.foldl (fun s vt => histRecord cfg vt.1 vt.2 s) s).bucketCounts.length
          = cfg.bounds.length + 1 := by
  induction l with
  | nil => exact fun s h1 h2 => ⟨h1, h2⟩
  | cons vt rest ih =>
    intro s h1 h2
    have step := histRecord_preserves cfg vt.1 vt.2 s h1 h2
    simpa using ih (histRecord cfg vt.1 vt.2 s) step.1 step.2

lemma expRecord_preserves (cfg : ExpHistogramConfig) (value : ℝ) (t : ℤ)
    (s : ExpState)
    (h : bucketTotal s.positiveBuckets + bucketTotal s.negativeBuckets +
          s.zeroCount = s.totalCount) :
    bucketTotal (expRecord cfg value t s).positiveBuckets +
        bucketTotal (expRecord cfg value t s).negativeBuckets +
        (expRecord cfg value t s).zeroCount
      = (expRecord cfg value t s).totalCount := by
  simp only [expRecord, routeValue]
  by_cases hz : |value| ≤ cfg.zeroThreshold
  · simp only [if_pos hz]
    omega
  · by_cases hp : 0 ≤ value
    · simp only [if_neg hz, if_pos hp, bucketTotal_add_single]
      omega
    · simp only [if_neg hz, if_neg hp, bucketTotal_add_single]
      omega

lemma exp_fold_inv (cfg : ExpHistogramConfig) (l : List (ℝ × ℤ)) :
    ∀ s : ExpState,
      bucketTotal s.positiveBuckets + bucketTotal s.negativeBuckets +
          s.zeroCount = s.totalCount →
      bucketTotal (l.foldl (fun s vt => expRecord cfg vt.1 vt.2 s) s).positiveBuckets +
          bucketTotal (l.foldl (fun s vt => expRecord cfg vt.1 vt.2 s) s).negativeBuckets +
          (l.foldl (fun s vt => expRecord cfg vt.1 vt.2 s) s).zeroCount
        = (l.foldl (fun s vt => expRecord cfg vt.1 vt.2 s) s).totalCount := by
  induction l with
  | nil => exact fun s h => h
  | cons vt rest ih =>
    intro s h
    simpa using ih (expRecord cfg vt.1 vt.2 s) (expRecord_preserves cfg vt.1 vt.2 s h)

/-- C1: for every instrument worker (explicit-bounds histogram and
exponential histogram) and every sequence of recorded values within one
aggregation window (starting from the fresh state the loop initialises and
every delta reset restores), the sum of all bucket counts plus the
zero-count equals the total count after every record step; the explicit
histogram has no zero bucket, so there the bucket counts alone sum to the
count. -/
theorem bucket_conservation :
    (∀ (cfg : HistogramConfig) (t0 : ℤ) (l : List (ℚ × ℤ)),
      (l.foldl (fun s vt => histRecord cfg vt.1 vt.2 s) (initHistState cfg t0)).bucketCounts.sum
        = (l.foldl (fun s vt => histRecord cfg vt.1 vt.2 s) (initHistState cfg t0)).count) ∧
    (∀ (cfg : ExpHistogramConfig) (t0 : ℤ) (l : List (ℝ × ℤ)),
      bucketTotal (l.foldl (fun s vt => expRecord cfg vt.1 vt.2 s) (initExpState t0)).positiveBuckets +
          bucketTotal (l.foldl (fun s vt => expRecord cfg vt.1 vt.2 s) (initExpState t0)).negativeBuckets +
          (l.foldl (fun s vt => expRecord cfg vt.1 vt.2 s) (initExpState t0)).zeroCount
        = (l.foldl (fun s vt => expRecord cfg vt.1 vt.2 s) (initExpState t0)).totalCount) := by
  constructor
  · intro cfg t0 l
    exact (hist_fold_inv cfg l (initHistState cfg t0) (by simp [initHistState])
      (by simp [initHistState])).1
  · intro cfg t0 l
    exact exp_fold_inv cfg l (initExpState t0) (by simp [initExpState, bucketTotal])

lemma findBucket_mem (value : ℚ) :
    ∀ (bounds : List ℚ) (h : findBucket value bounds < bounds.length),
      value ≤ bounds.get ⟨findBucket value bounds, h⟩
  | [], h => by simp [findBucket] at h
  | b :: rest, h => by
    by_cases hb : value ≤ b
    · simp only [findBucket, if_pos hb, List.get_cons_zero]
      exact hb
    · have hlt : findBucket value rest < rest.length := by
        simpa [findBucket, hb] using h
      have := findBucket_mem value rest hlt
      simpa [findBucket, hb] using this

lemma findBucket_min (value : ℚ) :
    ∀ (bounds : List ℚ) (j : ℕ) (hj : j < bounds.length),
      value ≤ bounds.get ⟨j, hj⟩ → findBucket value bounds ≤ j
  | [], j, hj, _ => by simp at hj
  | b :: rest, j, hj, hle => by
    by_cases hb : value ≤ b
    · simp [findBucket, hb]
    · cases j with
      | zero => exact absurd (by simpa using hle) hb
      | succ n =>
        have := findBucket_min value rest n (by simpa using hj) (by simpa using hle)
        simp only [findBucket, if_neg hb]
        omega

lemma findBucket_overflow (value : ℚ) :
    ∀ bounds : List ℚ,
      (findBucket value bounds = bounds.length ↔
        ∀ (j : ℕ) (hj : j < bounds.length), bounds.get ⟨j, hj⟩ < value)
  | [] => by simp [findBucket]
  | b :: rest => by
    by_cases hb : value ≤ b
    · constructor
      · intro h
        simp only [findBucket, if_pos hb, List.length_cons] at h
        omega
      · intro h
        exact absurd (h 0 (by simp)) (by simpa using hb)
    · have ih := findBucket_overflow value rest
      constructor
      · intro h j hj
        have hr : findBucket value rest = rest.length := by
          simp only [findBucket, if_neg hb, List.length_cons] at h
          omega
        cases j with
        | zero => simpa using lt_of_not_le hb
        | succ n => simpa using ih.mp hr n (by simpa using hj)
      · intro h
        have hr : findBucket value rest = rest.length :=
          ih.mpr fun j hj => by simpa using h (j + 1) (by simpa using hj)
        simp [findBucket, if_neg hb, hr]

/-- C2: `findBucket` returns the smallest index whose bound is at least the
value (ties at a boundary fall into the lower bucket), returns
`bounds.length` exactly when the value exceeds every bound, and on the
bounds `[10, 20, 30]` produces the table the spec lists. -/
theorem findBucket_spec :
    (∀ (value : ℚ) (bounds : List ℚ), List.Chain' (· < ·) bounds →
      findBucket value bounds ≤ bounds.length ∧
      (∀ h : findBucket value bounds < bounds.length,
        value ≤ bounds.get ⟨findBucket value bounds, h⟩) ∧
      (∀ (j : ℕ) (hj : j < bounds.length),
        value ≤ bounds.get ⟨j, hj⟩ → findBucket value bounds ≤ j) ∧
      (findBucket value bounds = bounds.length ↔
        ∀ (j : ℕ) (hj : j < bounds.length), bounds.get ⟨j, hj⟩ < value)) ∧
    (findBucket 5 [10, 20, 30] = 0 ∧ findBucket 10 [10, 20, 30] = 0 ∧
      findBucket 15 [10, 20, 30] = 1 ∧ findBucket 20 [10, 20, 30] = 1 ∧
      findBucket 25 [10, 20, 30] = 2 ∧ findBucket 30 [10, 20, 30] = 2 ∧
      findBucket 35 [10, 20, 30] = 3) := by
  constructor
  · intro value bounds _
    exact ⟨findBucket_le_length value bounds, findBucket_mem value bounds,
      findBucket_min value bounds, findBucket_overflow value bounds⟩
  · refine ⟨?_, ?_, ?_, ?_, ?_, ?_, ?_⟩ <;> decide

/-- Witness for C2: the general part applied to the concrete ascending
bounds `[10, 20, 30]`. -/
theorem findBucket_spec_witness :
    findBucket 7 [10, 20, 30] ≤ 3 ∧ findBucket 7 [10, 20, 30] ≤ 0 := by
  have h := findBucket_spec.1 7 [10, 20, 30] (by norm_num [List.chain'_cons])
  exact ⟨by simpa using h.1, h.2.2.1 0 (by decide) (by decide)⟩

/-- C3: under Delta temporality each iteration ends with the aggregation
state reset — count, sum, min, max, bucket counts and zero-count zeroed and
`startTime` advanced to the emission time — so a snapshot of the post-step
state with no intervening record has `count = 0` and `sum = 0`; under
Cumulative temporality the post-step state is exactly the recorded state,
with no reset. -/
theorem temporality_reset :
    (∀ (cfg : HistogramConfig) (s : HistState) (v : ℚ) (t t2 : ℤ),
      (cfg.temporality = .delta →
        (histStep cfg s v t).2.count = 0 ∧ (histStep cfg s v t).2.sum = 0 ∧
        (histStep cfg s v t).2.minVal = 0 ∧ (histStep cfg s v t).2.maxVal = 0 ∧
        (histStep cfg s v t).2.bucketCounts = List.replicate (cfg.bounds.length + 1) 0 ∧
        (histStep cfg s v t).2.startTime = t ∧
        (histSnapshot (histStep cfg s v t).2 t2).count = 0 ∧
        (histSnapshot (histStep cfg s v t).2 t2).sum = 0) ∧
      (cfg.temporality = .cumulative →
        (histStep cfg s v t).2 = histRecord cfg v t s)) ∧
    (∀ (cfg : ExpHistogramConfig) (s : ExpState) (v : ℝ) (t t2 : ℤ),
      (cfg.temporality = .delta →
        (expStep cfg s v t).2.totalCount = 0 ∧ (expStep cfg s v t).2.sum = 0 ∧
        (expStep cfg s v t).2.minVal = 0 ∧ (expStep cfg s v t).2.maxVal = 0 ∧
        (expStep cfg s v t).2.zeroCount = 0 ∧
        (expStep cfg s v t).2.positiveBuckets = 0 ∧
        (expStep cfg s v t).2.negativeBuckets = 0 ∧
        (expStep cfg s v t).2.startTime = t ∧
        (expSnapshot cfg (expStep cfg s v t).2 t2).count = 0 ∧
        (expSnapshot cfg (expStep cfg s v t).2 t2).sum = 0) ∧
      (cfg.temporality = .cumulative →
        (expStep cfg s v t).2 = expRecord cfg v t s)) := by
  constructor
  · intro cfg s v t t2
    constructor
    · intro h
      simp [histStep, histReset, histSnapshot, h]
    · intro h
      simp [histStep, h]
  · intro cfg s v t t2
    constructor
    · intro h
      simp [expStep, expReset, expSnapshot, h]
    · intro h
      simp [expStep, h]

/-- Witness for C3: both temporalities exercised on concrete
configurations and states. -/
theorem temporality_reset_witness :
    (histStep ⟨.delta, [], true⟩ (initHistState ⟨.delta, [], true⟩ 0) 1 5).2.count = 0 ∧
    (histStep ⟨.cumulative, [], true⟩ (initHistState ⟨.cumulative, [], true⟩ 0) 1 5).2 =
      histRecord ⟨.cumulative, [], true⟩ 1 5 (initHistState ⟨.cumulative, [], true⟩ 0) ∧
    (expStep ⟨.delta, 0, 100, true, 1/10⟩ (initExpState 0) 1 5).2.totalCount = 0 ∧
    (expStep ⟨.cumulative, 0, 100, true, 1/10⟩ (initExpState 0) 1 5).2 =
      expRecord ⟨.cumulative, 0, 100, true, 1/10⟩ 1 5 (initExpState 0) :=
  ⟨((temporality_reset.1 _ _ 1 5 0).1 rfl).1,
    (temporality_reset.1 _ _ 1 5 0).2 rfl,
    ((temporality_reset.2 _ _ 1 5 0).1 rfl).1,
    (temporality_reset.2 _ _ 1 5 0).2 rfl⟩

/-- C6: with `recordMinMax` enabled, recording a single value into a state
whose count is zero (fresh or freshly reset) makes both min and max equal to
that value, for values of any sign and magnitude. -/
theorem first_sample_minmax :
    (∀ (cfg : HistogramConfig) (s : HistState) (v : ℚ) (t : ℤ),
      cfg.recordMinMax = true → s.count = 0 →
      (histRecord cfg v t s).minVal = v ∧ (histRecord cfg v t s).maxVal = v) ∧
    (∀ (cfg : ExpHistogramConfig) (s : ExpState) (v : ℝ) (t : ℤ),
      cfg.recordMinMax = true → s.totalCount = 0 →
      (expRecord cfg v t s).minVal = v ∧ (expRecord cfg v t s).maxVal = v) := by
  constructor
  · intro cfg s v t hm hc
    constructor <;> simp [histRecord, hm, hc]
  · intro cfg s v t hm hc
    constructor <;> simp [expRecord, hm, hc]

/-- Witness for C6: a negative first sample sets both min and max on both
instruments. -/
theorem first_sample_minmax_witness :
    (histRecord ⟨.cumulative, [], true⟩ (-5) 0 (initHistState ⟨.cumulative, [], true⟩ 0)).minVal = -5 ∧
    (histRecord ⟨.cumulative, [], true⟩ (-5) 0 (initHistState ⟨.cumulative, [], true⟩ 0)).maxVal = -5 ∧
    (expRecord ⟨.cumulative, 0, 100, true, 1/10⟩ (-3) 0 (initExpState 0)).minVal = -3 ∧
    (expRecord ⟨.cumulative, 0, 100, true, 1/10⟩ (-3) 0 (initExpState 0)).maxVal = -3 :=
  ⟨(first_sample_minmax.1 _ _ (-5) 0 rfl rfl).1,
    (first_sample_minmax.1 _ _ (-5) 0 rfl rfl).2,
    (first_sample_minmax.2 _ _ (-3) 0 rfl rfl).1,
    (first_sample_minmax.2 _ _ (-3) 0 rfl rfl).2⟩

/-- C10: beyond the zeroed counters, the Delta post-emission reset also
empties the exemplar buffer (`exemplars = nil`) in both workers, so the next
window starts with zero retained exemplars. -/
theorem delta_reset_clears_exemplars :
    (∀ (cfg : HistogramConfig) (s : HistState) (v : ℚ) (t : ℤ),
      cfg.temporality = .delta → (histStep cfg s v t).2.exemplars = []) ∧
    (∀ (cfg : ExpHistogramConfig) (s : ExpState) (v : ℝ) (t : ℤ),
      cfg.temporality = .delta → (expStep cfg s v t).2.exemplars = []) := by
  constructor
  · intro cfg s v t h
    simp [histStep, histReset, h]
  · intro cfg s v t h
    simp [expStep, expReset, h]

/-- Witness for C10: concrete delta-temporality steps end with an empty
exemplar buffer. -/
theorem delta_reset_clears_exemplars_witness :
    (histStep ⟨.delta, [], true⟩ (initHistState ⟨.delta, [], true⟩ 0) 1 5).2.exemplars = [] ∧
    (expStep ⟨.delta, 0, 100, true, 1/10⟩ (initExpState 0) 1 5).2.exemplars = [] :=
  ⟨delta_reset_clears_exemplars.1 _ _ 1 5 rfl,
    delta_reset_clears_exemplars.2 _ _ 1 5 rfl⟩

/-- C7: the exemplar buffer stays bounded by 10 under every push from a
bounded buffer, each push appends the newest entry and evicts exactly the
oldest when the bound is exceeded, and pushing 15 exemplars in sequence into
an empty buffer leaves exactly the last 10 in insertion order. -/
theorem exemplar_fifo :
    (∀ (α : Type) (exemplars : List (Exemplar α)) (e : Exemplar α),
      exemplars.length ≤ 10 →
      (pushExemplar exemplars e).length ≤ 10 ∧
      pushExemplar exemplars e =
        (exemplars ++ [e]).drop ((exemplars ++ [e]).length - 10)) ∧
    (∀ e1 e2 e3 e4 e5 e6 e7 e8 e9 e10 e11 e12 e13 e14 e15 : Exemplar ℚ,
      List.foldl pushExemplar []
          [e1, e2, e3, e4, e5, e6, e7, e8, e9, e10, e11, e12, e13, e14, e15] =
        [e6, e7, e8, e9, e10, e11, e12, e13, e14, e15]) := by
  constructor
  · intro α exemplars e h
    simp only [pushExemplar]
    by_cases hl : (exemplars ++ [e]).length > 10
    · have h11 : (exemplars ++ [e]).length = 11 := by
        simp only [List.length_append, List.length_cons, List.length_nil] at hl ⊢
        omega
      rw [if_pos hl, h11]
      constructor
      · simp only [List.length_drop, h11]
        omega
      · norm_num
    · rw [if_neg hl]
      have h0 : (exemplars ++ [e]).length - 10 = 0 := by omega
      rw [h0]
      exact ⟨by omega, (List.drop_zero _).symm⟩
  · intro e1 e2 e3 e4 e5 e6 e7 e8 e9 e10 e11 e12 e13 e14 e15
    simp [pushExemplar]

/-- Witness for C7: a push onto the empty buffer respects the bound and the
FIFO characterisation. -/
theorem exemplar_fifo_witness :
    (pushExemplar ([] : List (Exemplar ℚ)) ⟨0, 0⟩).length ≤ 10 :=
  (exemplar_fifo.1 ℚ [] ⟨0, 0⟩ (by simp)).1

/-- C9: any configuration with a negative rate, negative total duration,
negative worker or metric count, empty service name or empty output fails
`Validate` with a typed error, and `SimulateHistogram` returns that
validation error without invoking `run`. -/
theorem validation_rejects :
    ∀ c : Config,
      (c.rate < 0 ∨ c.totalDuration < 0 ∨ c.workerCount < 0 ∨ c.numMetrics < 0 ∨
        c.serviceName = "" ∨ c.output = "") →
      c.validate ≠ .ok () ∧ simulateHistogram (some c) ≠ .ran ∧
      ∃ msg, simulateHistogram (some c) = .validationError msg := by
  intro c h
  have hv : ∃ msg, c.validate = .error msg := by
    unfold Config.validate
    split_ifs with h1 h2 h3 h4 h5 h6
    · exact ⟨_, rfl⟩
    · exact ⟨_, rfl⟩
    · exact ⟨_, rfl⟩
    · exact ⟨_, rfl⟩
    · exact ⟨_, rfl⟩
    · exact ⟨_, rfl⟩
    · tauto
  obtain ⟨msg, hm⟩ := hv
  refine ⟨?_, ?_, msg, ?_⟩
  · rw [hm]
    intro hcontra
    exact Except.noConfusion hcontra
  · simp [simulateHistogram, hm]
  · simp [simulateHistogram, hm]

/-- Witness for C9: a config whose only defect is a negative rate is
rejected before any worker runs. -/
theorem validation_rejects_witness :
    simulateHistogram (some ⟨1, 1, -1, 0, "x", "terminal"⟩) ≠ .ran :=
  (validation_rejects ⟨1, 1, -1, 0, "x", "terminal"⟩ (Or.inl (by norm_num))).2.1

/-- C8 counterexample: a configured total duration of 48 hours is installed
as-is, so the effective deadline exceeds 24 hours — the 86400-second value is
a default for zero, not a cap. -/
theorem worker_duration_no_cap :
    workerEffectiveDuration (172800 * 1000000000) = 172800 * 1000000000 ∧
    ¬ workerEffectiveDuration (172800 * 1000000000) ≤ 86400 * 1000000000 := by
  norm_num [workerEffectiveDuration, nsPerSecond]

/-- C8 amended: `Worker.Run` replaces a zero `totalDuration` with 86400
seconds before installing the deadline, so every nonnegative configuration
gets a positive finite deadline and the default (zero) case is capped at 24
hours; a nonzero duration is installed unchanged, so the effective deadline
exceeds 24 hours exactly when the configured duration does. -/
theorem worker_duration_default :
    ∀ d : ℤ, 0 ≤ d →
      0 < workerEffectiveDuration d ∧
      (d = 0 → workerEffectiveDuration d = 86400 * 1000000000) ∧
      (workerEffectiveDuration d ≤ 86400 * 1000000000 ↔ d ≤ 86400 * 1000000000) := by
  intro d hd
  unfold workerEffectiveDuration nsPerSecond
  by_cases h : d = 0
  · subst h
    norm_num
  · rw [if_neg h]
    exact ⟨by omega, fun h0 => absurd h0 h, Iff.rfl⟩

/-- Witness for C8 amended: the zero configuration gets the 24-hour default. -/
theorem worker_duration_default_witness :
    0 < workerEffectiveDuration 0 ∧
    workerEffectiveDuration 0 = 86400 * 1000000000 :=
  ⟨(worker_duration_default 0 le_rfl).1, (worker_duration_default 0 le_rfl).2.1 rfl⟩

/-- C4 counterexample: at rate 2 the exponential-histogram worker's ticker
period is 2 seconds, not the 1/2 second the explicit-bounds histogram worker
waits; and `SimulateSum` turns a zero rate into rate 1 instead of running
unthrottled. -/
theorem pacing_counterexample :
    expHistogramTickerPeriodNs 2 = 2000000000 ∧
    histogramTickerPeriodNs 2 = 500000000 ∧
    expHistogramTickerPeriodNs 2 ≠ histogramTickerPeriodNs 2 ∧
    sumEffectiveRate 0 = 1 ∧ sumEffectiveRate 0 ≠ 0 := by
  refine ⟨?_, ?_, ?_, ?_, ?_⟩ <;> decide

/-- C4 amended: the explicit-bounds histogram worker records on every
iteration when the rate is 0 and waits `1/n` seconds between iterations for
an integer rate `n > 0`; the exponential-histogram worker instead waits `n`
seconds between iterations; and `SimulateSum` replaces a zero rate with 1
(one tick per second) while keeping a nonzero rate unchanged. -/
theorem pacing_amended :
    ∀ n : ℕ, 0 < n →
      histogramTickerPeriodNs (n : ℚ) = 1000000000 / (n : ℤ) ∧
      expHistogramTickerPeriodNs (n : ℚ) = (n : ℤ) * 1000000000 ∧
      (∀ tickReady : Bool, histogramRecordsThisIteration 0 tickReady = true) ∧
      sumEffectiveRate 0 = 1 ∧
      (∀ q : ℚ, q ≠ 0 → sumEffectiveRate q = q) := by
  intro n hn
  have hf : float64ToInt64 (n : ℚ) = (n : ℤ) := by
    unfold float64ToInt64
    rw [if_pos (by positivity), Int.floor_natCast]
  refine ⟨?_, ?_, ?_, ?_, ?_⟩
  · unfold histogramTickerPeriodNs nsPerSecond
    rw [hf, Int.tdiv_eq_ediv (by norm_num) (Int.ofNat_nonneg n)]
  · unfold expHistogramTickerPeriodNs nsPerSecond
    rw [hf]
  · intro tickReady
    simp [histogramRecordsThisIteration]
  · simp [sumEffectiveRate]
  · intro q hq
    simp [sumEffectiveRate, hq]

/-- Witness for C4 amended: at rate 1 both tickers compute one-second or
one-second-per-unit periods as characterised. -/
theorem pacing_amended_witness :
    histogramTickerPeriodNs 1 = 1000000000 ∧
    expHistogramTickerPeriodNs 1 = 1000000000 := by
  have h := pacing_amended 1 one_pos
  exact ⟨by simpa using h.1, by simpa using h.2.1⟩

lemma mapToIndex_zero (scale : ℤ) : mapToIndex 0 scale = 0 := by
  simp [mapToIndex]

/-- C5 counterexample: with a negative `zeroThreshold` the value 0 is not
assigned to the zero bucket — it lands in `positiveBuckets[0]` — and
`mapToIndex` of the nonzero value 2 at scale -1 is 0 although 2 is far
outside the zero bucket of threshold 0.1. -/
theorem zero_bucket_counterexample :
    (expRecord ⟨.cumulative, 0, 100, false, -1⟩ 0 0 (initExpState 0)).zeroCount = 0 ∧
    (expRecord ⟨.cumulative, 0, 100, false, -1⟩ 0 0 (initExpState 0)).positiveBuckets 0 = 1 ∧
    mapToIndex 2 (-1) = 0 ∧
    ¬ |(2 : ℝ)| ≤ 1 / 10 := by
  have hz : ¬ |(0 : ℝ)| ≤ (-1 : ℝ) := by norm_num
  refine ⟨?_, ?_, ?_, by norm_num⟩
  · simp only [expRecord, routeValue, initExpState]
    rw [if_neg hz, if_pos (le_refl (0 : ℝ))]
  · simp only [expRecord, routeValue, initExpState]
    rw [if_neg hz, mapToIndex_zero, zero_add, if_pos (le_refl (0 : ℝ)),
      Finsupp.single_eq_same]
  · unfold mapToIndex
    rw [if_neg (two_ne_zero)]
    have habs : |(2 : ℝ)| = 2 := abs_of_pos two_pos
    have hlog : Real.log 2 ≠ 0 := ne_of_gt (Real.log_pos one_lt_two)
    have hval : Real.log |(2 : ℝ)| * ((Real.log 2)⁻¹ * (2 : ℝ) ^ (-1 : ℤ)) = (2 : ℝ)⁻¹ := by
      rw [habs, ← mul_assoc, mul_inv_cancel₀ hlog, one_mul, zpow_neg_one]
    show ⌊Real.log |(2 : ℝ)| * ((Real.log 2)⁻¹ * (2 : ℝ) ^ (-1 : ℤ))⌋ = 0
    rw [hval, Int.floor_eq_zero_iff]
    norm_num [Set.mem_Ico]

/-- C5 amended: a value is routed to the zero bucket exactly by the test
`|value| <= zeroThreshold`: every such value increments the zero-count and
leaves both signed bucket maps untouched.  In particular the value 0 reaches
the zero bucket whenever the threshold is nonnegative (and
`mapToIndex 0 scale = 0` at every scale), but with a negative threshold 0 is
routed into `positiveBuckets[0]` instead, and `mapToIndex` of a nonzero
value can be 0 for values outside the zero bucket. -/
theorem zero_bucket_routing :
    ∀ (cfg : ExpHistogramConfig) (s : ExpState) (v : ℝ) (t : ℤ),
      |v| ≤ cfg.zeroThreshold →
      (expRecord cfg v t s).zeroCount = s.zeroCount + 1 ∧
      (expRecord cfg v t s).positiveBuckets = s.positiveBuckets ∧
      (expRecord cfg v t s).negativeBuckets = s.negativeBuckets ∧
      (0 ≤ cfg.zeroThreshold → (expRecord cfg 0 t s).zeroCount = s.zeroCount + 1) ∧
      (∀ scale : ℤ, mapToIndex 0 scale = 0) := by
  intro cfg s v t h
  refine ⟨?_, ?_, ?_, ?_, mapToIndex_zero⟩
  · simp [expRecord, routeValue, h]
  · simp [expRecord, routeValue, h]
  · simp [expRecord, routeValue, h]
  · intro h0
    simp [expRecord, routeValue, h0]

/-- Witness for C5 amended: a value inside the threshold (0.05 against
threshold 0.1) increments the zero-count and leaves the bucket maps alone. -/
theorem zero_bucket_routing_witness :
    (expRecord ⟨.cumulative, 0, 100, false, 1/10⟩ (1/20) 0 (initExpState 0)).zeroCount =
      (initExpState 0).zeroCount + 1 ∧
    (expRecord ⟨.cumulative, 0, 100, false, 1/10⟩ (1/20) 0 (initExpState 0)).positiveBuckets =
      (initExpState 0).positiveBuckets := by
  have h := zero_bucket_routing ⟨.cumulative, 0, 100, false, 1/10⟩ (initExpState 0) (1/20) 0
    (by rw [show |(1/20 : ℝ)| = 1/20 from abs_of_pos (by norm_num)]; norm_num)
  exact ⟨h.1, h.2.1⟩

end Otelgen
